import Mathlib

/-!
Verification of the charmcraftcache artifact-resolution and cache engine.

The development shallowly embeds the two implementation variants of the
repository:

* `src/charmcraftcache/main.py` — the wheel-oriented variant: per-dependency
  wheel matching against release assets named with `.ccchub1.`/`.ccchub2.`/
  `.ccchub3.` delimiters.
* `src/charmcraftcache/_main.py` — the platform-oriented variant: per-platform
  tarball archives named with `_ccchub1_`/`_ccchub2_` delimiters.

Filesystem effects are embedded as explicit state passing over small record
types; fallible paths (Python exceptions) are embedded as `Except`/`Option`
results.  Definitions follow the Python source line by line; names keep the
source's snake_case where Lean allows it.  The file is organised as all
definitions first, then all theorems.
-/

namespace Ccc

/-! ### String helpers shared by both variants

Python string operations are embedded as structurally recursive functions on
the character list of the string, so that every definition evaluates by
kernel reduction on concrete inputs. -/

/-- Split at the first occurrence of `sep`: `some (pre, post)` where `pre` is
the text before the first occurrence and `post` the text after it, `none` when
`sep` does not occur.  This is the scanning step underlying Python's
left-to-right, non-overlapping `str.split`. -/
def breakOn (sep : List Char) : List Char → Option (List Char × List Char)
  | [] => if sep.isEmpty then some ([], []) else none
  | c :: rest =>
    if List.isPrefixOf sep (c :: rest) then some ([], (c :: rest).drop sep.length)
    else
      match breakOn sep rest with
      | some (pre, post) => some (c :: pre, post)
      | none => none

/-- `sep` occurs somewhere in `l`. -/
def containsSub (sep l : List Char) : Bool := (breakOn sep l).isSome

/-- Python tuple unpacking `a, b = s.split(sep)`: succeeds exactly when the
separator occurs exactly once (two parts); otherwise the Python code raises
`ValueError`. -/
def splitOnce (sep s : String) : Option (String × String) :=
  match breakOn sep.data s.data with
  | some (pre, post) =>
      if containsSub sep.data post then none
      else some (String.mk pre, String.mk post)
  | none => none

/-- Python `s.split(sep)` for a single-character separator: every occurrence
splits, `n` occurrences give `n + 1` parts. -/
def splitOnChar (sep : Char) : List Char → List (List Char)
  | [] => [[]]
  | c :: rest =>
    if c = sep then [] :: splitOnChar sep rest
    else
      match splitOnChar sep rest with
      | [] => [[c]]
      | h :: t => (c :: h) :: t

/-- Python `s.split(sep)` on strings, single-character separator. -/
def splitAllOn (sep : Char) (s : String) : List String :=
  (splitOnChar sep s.data).map String.mk

/-- Python `str.removesuffix`: drop `suf` from the end of `s` only when `s`
actually ends with it. -/
def removeSuffix (s suf : String) : String :=
  if List.isSuffixOf suf.data s.data then
    String.mk (s.data.take (s.data.length - suf.data.length))
  else s

/-- Python `str.upper` (ASCII, which is all the source feeds it). -/
def upperStr (s : String) : String := String.mk (s.data.map Char.toUpper)

/-- Python `str.replace(pattern, replacement)` for single characters:
replace every occurrence of `c` by `d`. -/
def replaceChar (c d : Char) (s : String) : String :=
  String.mk (s.data.map (fun x => if x = c then d else x))

/-- `c` is one of the characters collapsed by `packaging.utils.canonicalize_name`
(the regex class `[-_.]`). -/
def isSepChar (c : Char) : Bool := c = '-' || c = '_' || c = '.'

/-- Core of `canonicalize_name`: replace every run of `[-_.]` by a single `-`
and lowercase everything else (`re.sub(r"[-_.]+", "-", name).lower()`).
The flag records whether the previous character belonged to a separator run. -/
def collapseSepsAux : Bool → List Char → List Char
  | _, [] => []
  | prevSep, c :: rest =>
    if isSepChar c then
      if prevSep then collapseSepsAux true rest
      else '-' :: collapseSepsAux true rest
    else c.toLower :: collapseSepsAux false rest

/-- `packaging.utils.canonicalize_name` (normalization only; the `validate=True`
name-shape check, which can only raise on ill-formed names, is not needed by
any claim). -/
def canonicalizeName (s : String) : String :=
  String.mk (collapseSepsAux false s.data)

/-! ### C1 — version-fingerprint reconciliation (`main.py` lines 403–409 and
502–515) -/

/-- `main.py` `VersionType`: the two fingerprint kinds whose change wipes the
cached artifacts. -/
inductive VersionType
  | charmcraftcache
  | charmcraftcachehub
deriving DecidableEq

/-- The slice of the cache root that `clean_cache` / `clean_cache_if_version_changed`
touch.  `fingerprint vt` is the content of `{vt}_version.txt` (`none` = file
absent); `artifacts` is the `charmcraft` cache subdirectory that holds every
downloaded artifact (`none` = directory absent, `some l` = directory present
with contents `l`); `otherFiles` stands for the remaining files directly under
the cache root (HTTP cache pair, pip report), which these functions never
touch. -/
structure CacheFS where
  fingerprint : VersionType → Option String
  artifacts : Option (List String)
  otherFiles : List String

/-- `main.py` `clean_cache` (lines 403–409): `shutil.rmtree` on the artifact
subdirectory, tolerating `FileNotFoundError`, then `mkdir` it back empty.
`failState = none` models a successful wipe.  `failState = some a` models
`rmtree` raising some other `OSError` mid-wipe, leaving the artifact directory
in an arbitrary state `a`; the exception propagates (the `Except.error`
constructor), as `clean_cache` has no handler for it. -/
def clean_cache (failState : Option (Option (List String))) (fs : CacheFS) :
    Except CacheFS CacheFS :=
  match failState with
  | some a => .error { fs with artifacts := a }
  | none => .ok { fs with artifacts := some [] }

/-- Write `{vt}_version.txt` with `current` (the `finally` block's
`file.write_text(current_version)`). -/
def writeFingerprint (vt : VersionType) (current : String) (fs : CacheFS) : CacheFS :=
  { fs with fingerprint := fun v => if v = vt then some current else fs.fingerprint v }

/-- `main.py` `clean_cache_if_version_changed` (lines 502–515), embedding the
`try`/`except FileNotFoundError`/`else`/`finally` structure: read the
fingerprint file; if absent, do nothing (first run); if present and different
from `current`, run `clean_cache`; in every case — including when the wipe
raises — the `finally` block rewrites the fingerprint file with `current`
before control leaves the function. -/
def clean_cache_if_version_changed (vt : VersionType) (current : String)
    (failState : Option (Option (List String))) (fs : CacheFS) :
    Except CacheFS CacheFS :=
  match fs.fingerprint vt with
  | none => .ok (writeFingerprint vt current fs)
  | some last =>
    if last ≠ current then
      match clean_cache failState fs with
      | .ok fs2 => .ok (writeFingerprint vt current fs2)
      | .error fs2 => .error (writeFingerprint vt current fs2)
    else .ok (writeFingerprint vt current fs)

/-- A concrete sample cache filesystem: hub fingerprint `v1` recorded, one
artifact cached. -/
def sampleCacheFS : CacheFS :=
  { fingerprint := fun v =>
      match v with
      | VersionType.charmcraftcachehub => some ("v1")
      | VersionType.charmcraftcache => none
    artifacts := some (["old.whl"])
    otherFiles := ["latest_release_etag.txt"] }

/-! ### C3 — atomic streamed download (`main.py` lines 381–395, `_main.py`
lines 456–469; both variants share the identical temp-file-then-move
structure) -/

/-- The two paths a single asset download touches: the one shared temporary
path inside the cache root (`cache_directory / "current.whl.part"`, resp.
`"current.tar.gz.part"`) and the asset's final Placement path.  `none` means
the path does not exist on disk. -/
structure DlFS where
  tempFile : Option (List Nat)
  final : Option (List Nat)
deriving DecidableEq

/-- One iteration of the download loop for one asset: `open(temporary_path,
"wb")` truncates/creates the temporary file, the response stream is written
chunk by chunk, and only after the stream is exhausted does
`shutil.move(temporary_path, asset.path)` put the content at the final path
(removing the temporary file).  `interruptAfter = some n` models the process
dying (or the stream raising) after `n` chunks were written: the function
exits exceptionally with the temporary file holding the first `n` chunks and
the final path untouched. -/
def download_asset (chunks : List (List Nat)) (interruptAfter : Option Nat)
    (fs : DlFS) : Except DlFS DlFS :=
  match interruptAfter with
  | some n => .error { fs with tempFile := some (chunks.take n).flatten }
  | none => .ok { tempFile := none, final := some chunks.flatten }

/-! ### C4 / C5 — wheel matching and download planning (`main.py` lines
331–398) -/

/-- `main.py` `Dependency` (lines 93–98): one target identity.  `name` is the
normalized package name, `version` the exact resolved version (represented by
its normalized string), `series` the base series (e.g. `focal`), and
`architecture` the machine architecture (`platform.machine()`). -/
structure Dependency where
  name : String
  version : String
  series : String
  architecture : String
deriving DecidableEq

/-- One entry of the release manifest's `assets` array, with the fields the
matching loop reads. -/
structure CatalogAsset where
  name : String
  browser_download_url : String
  size : Nat
deriving DecidableEq

/-- `packaging.utils.parse_wheel_filename`, restricted to the two components
the matching loop uses: the filename must end in `.whl` and its stem must
contain 4 or 5 dashes; the first dash-separated field is the (canonicalized)
package name and the second the version. -/
def parse_wheel_filename (s : String) : Option (String × String) :=
  if List.isSuffixOf (".whl").data s.data then
    let parts := splitOnChar '-' (s.data.take (s.data.length - 4))
    if parts.length = 5 ∨ parts.length = 6 then
      match parts with
      | namePart :: versionPart :: _ =>
          some (canonicalizeName (String.mk namePart), String.mk versionPart)
      | _ => none
    else none
  else none

/-- Outcome of the inner loop body of `main.py` lines 332–366 for one asset:
`parseFail` is a `ValueError` from `split`/`parse_wheel_filename` aborting the
whole command; `next` is `continue` (or the name/version test failing, which
falls through to the next asset); `matched` is the `break` path carrying the
computed `file_path` and the `Asset` fields. -/
inductive AssetOutcome
  | parseFail
  | next
  | matched (filePath : List String) (wheelFileName url : String) (size : Nat)
deriving DecidableEq

/-- The body of `for asset in response_data["assets"]` (`main.py` 332–366):
split the asset name on `.ccchub1.`, parse the wheel filename, compare
name/version; on success split off series (`.ccchub2.`) and architecture
(`.ccchub3.`), recover the repository sub-path (`_`-joined, suffix
`.charmcraftcachehub`), build `file_path`, and reject on series or
architecture mismatch.  `file_path` is represented by its components below
`charmcraft_cache_subdirectory`. -/
def match_asset (dep : Dependency) (asset : CatalogAsset) : AssetOutcome :=
  match splitOnce (".ccchub1.") asset.name with
  | none => .parseFail
  | some (wheelFileName, rest) =>
    match parse_wheel_filename wheelFileName with
    | none => .parseFail
    | some (wheelPackageName, wheelVersion) =>
      if wheelPackageName = dep.name ∧ wheelVersion = dep.version then
        match splitOnce (".ccchub2.") rest with
        | none => .parseFail
        | some (series, rest2) =>
          match splitOnce (".ccchub3.") rest2 with
          | none => .parseFail
          | some (arch, rest3) =>
            let parent := splitAllOn '_' (removeSuffix rest3 (".charmcraftcachehub"))
            let filePath := ("charmcraft-buildd-base-v7") ::
              ("BuilddBaseAlias." ++ upperStr series) :: (parent ++ [wheelFileName])
            if series ≠ dep.series then .next
            else if arch ≠ dep.architecture then .next
            else .matched filePath wheelFileName asset.browser_download_url asset.size
      else .next

/-- Spec-side decomposition of an asset name into the four dimensions the
encoding carries (normalized package name, version, series, architecture),
following exactly the same splits as `match_asset`; used only to state
theorems about `match_asset`. -/
def parse_asset_dims (s : String) : Option (String × String × String × String) :=
  match splitOnce (".ccchub1.") s with
  | none => none
  | some (wheelFileName, rest) =>
    match parse_wheel_filename wheelFileName with
    | none => none
    | some (n, v) =>
      match splitOnce (".ccchub2.") rest with
      | none => none
      | some (ser, rest2) =>
        match splitOnce (".ccchub3.") rest2 with
        | none => none
        | some (ar, _) => some (n, v, ser, ar)

/-- Result of `for asset in ... / else` (`main.py` 332–371) for one
dependency: `aborted` propagates a `ValueError`, `missingWheel` is the
`for`-`else` branch (`missing_wheels += 1`), `found` is the `break` with the
first fully matching asset. -/
inductive DepResult
  | aborted
  | missingWheel
  | found (filePath : List String) (wheelFileName url : String) (size : Nat)
deriving DecidableEq

/-- The inner `for asset in response_data["assets"]` loop with its `break`:
the first asset on which `match_asset` fully matches wins; `continue`d assets
are skipped; a parse failure aborts. -/
def find_asset (dep : Dependency) : List CatalogAsset → DepResult
  | [] => .missingWheel
  | a :: rest =>
    match match_asset dep a with
    | .parseFail => .aborted
    | .next => find_asset dep rest
    | .matched fp w u s => .found fp w u s

/-- The artifact tree under `charmcraft_cache_subdirectory`, as a map from
path components to file bytes (`none` = path absent). -/
def FileMap : Type := List String → Option (List Nat)

/-- Writing a file at path `p` (the effect of `shutil.move` to the final
path). -/
def writeFile (fs : FileMap) (p : List String) (c : List Nat) : FileMap :=
  fun q => if q = p then some c else fs q

/-- The information `main.py` stores per matched-and-not-yet-present
dependency (`Asset` dataclass, lines 101–106, minus the display name):
placement path, download URL, size. -/
def AssetInfo : Type := List String × String × Nat

/-- `assets[dependency] = Asset(...)` (`main.py` line 360): Python dict
insertion — overwrite in place if the key is present, else append. -/
def upsertAsset (m : List (Dependency × AssetInfo)) (d : Dependency) (a : AssetInfo) :
    List (Dependency × AssetInfo) :=
  if m.any (fun e => e.1 = d) then m.map (fun e => if e.1 = d then (d, a) else e)
  else m ++ [(d, a)]

/-- The planning phase of `pack` (`main.py` 311–371): iterate the resolved
dependencies; for each, search the catalog; count misses
(`missing_wheels += 1`); for each full match whose `file_path` already exists,
skip (log only); otherwise record the asset in the download dict.  The
accumulator is the `(assets, missing_wheels)` pair; `none` models the
`ValueError` abort. -/
def build_assets (catalog : List CatalogAsset) (fs : FileMap) :
    List Dependency → (List (Dependency × AssetInfo) × Nat) →
    Option (List (Dependency × AssetInfo) × Nat)
  | [], acc => some acc
  | dep :: rest, acc =>
    match find_asset dep catalog with
    | .aborted => none
    | .missingWheel => build_assets catalog fs rest (acc.1, acc.2 + 1)
    | .found fp _w u s =>
        if (fs fp).isSome then build_assets catalog fs rest acc
        else build_assets catalog fs rest (upsertAsset acc.1 dep (fp, u, s), acc.2)

/-- Observable outcome of the wheel-variant `pack` (matching, download and
hand-off stages of `main.py` 311–400): the download dict, the
`missing_wheels` counter, whether the non-fatal warning was emitted
(line 372–375), the artifact tree after the download loop, the number of
network download calls (one `requests.get` per dict entry, line 385), and
whether control reached `run_charmcraft(["pack", ...])` (line 400). -/
structure PackOutcome where
  assets : List (Dependency × AssetInfo)
  missing_wheels : Nat
  warned : Bool
  fs : FileMap
  network_calls : Nat
  packed : Bool

/-- The matching + download portion of `main.py` `pack` (lines 311–400),
starting after the release manifest is in hand.  `net url` gives the bytes the
remote store serves for `url`.  `none` models the `ValueError` abort from a
malformed asset name. -/
def main_pack (deps : List Dependency) (catalog : List CatalogAsset)
    (net : String → List Nat) (fs0 : FileMap) : Option PackOutcome :=
  match build_assets catalog fs0 deps ([], 0) with
  | none => none
  | some (assets, missing) =>
    some { assets := assets
           missing_wheels := missing
           warned := missing ≠ 0
           fs := assets.foldl (fun m e => writeFile m e.2.1 (net e.2.2.1)) fs0
           network_calls := assets.length
           packed := true }

/-! ### Concrete sample data for witnesses -/

/-- A concrete target identity: `requests 2.31.0` on `focal`/`x86_64`. -/
def depEx : Dependency :=
  { name := "requests", version := "2.31.0", series := "focal", architecture := "x86_64" }

/-- A concrete catalog asset fully matching `depEx`. -/
def assetEx : CatalogAsset :=
  { name := "requests-2.31.0-py3-none-any.whl.ccchub1.focal.ccchub2.x86_64.ccchub3.canonical_repo.charmcraftcachehub"
    browser_download_url := "https://example/u1"
    size := 10 }

/-- A concrete catalog asset matching `depEx` on name, version and
architecture but not on series (`jammy`): the matching loop `continue`s past
it. -/
def assetExJammy : CatalogAsset :=
  { name := "requests-2.31.0-py3-none-any.whl.ccchub1.jammy.ccchub2.x86_64.ccchub3.canonical_repo.charmcraftcachehub"
    browser_download_url := "https://example/u2"
    size := 11 }

/-- The placement path `match_asset` computes for `depEx` and `assetEx`. -/
def fpEx : List String :=
  ["charmcraft-buildd-base-v7", "BuilddBaseAlias.FOCAL", "canonical", "repo",
   "requests-2.31.0-py3-none-any.whl"]

/-- A remote store serving fixed bytes for every URL. -/
def netEx : String → List Nat := fun _ => [1, 2, 3]

/-- An artifact tree in which `depEx`'s wheel is already placed (with bytes
`[9]`). -/
def fs0Ex : FileMap := fun p => if p = fpEx then some [9] else none

/-- The outcome of `main_pack` when the only dependency's wheel is already
placed: empty download dict, no misses, no network calls, tree unchanged. -/
def packOutEx : PackOutcome :=
  { assets := []
    missing_wheels := 0
    warned := false
    fs := fs0Ex
    network_calls := 0
    packed := true }

/-! ### C6 — identity resolution and architecture filtering (`main.py` lines
173–195 and 243–274; `_main.py` lines 322–352) -/

/-- One base mapping as the loop reads it after the `build-on` unwrapping:
its `channel` (e.g. `"22.04"`) and its optional `architectures` list
(`base.get("architectures", ["amd64"])`). -/
structure BaseEntry where
  channel : String
  architectures : Option (List String)
deriving DecidableEq

/-- One item of the charmcraft.yaml `bases` list (`main.py` lines 182–188):
`buildOn` is the value of its `build-on` key when present; `self` the item's
own fields, used when `build-on` is absent or empty (falsy). -/
structure YamlBase where
  buildOn : Option (List BaseEntry)
  self : BaseEntry
deriving DecidableEq

/-- `CHARMCRAFT_ARCHITECTURES` (`main.py` line 519); looking up any other key
raises `KeyError`. -/
def CHARMCRAFT_ARCHITECTURES : String → Option String := fun a =>
  if a = "x86_64" then some ("amd64")
  else if a = "aarch64" then some ("arm64")
  else none

/-- `SERIES` (`main.py` line 518); looking up any other key raises
`KeyError`. -/
def SERIES : String → Option String := fun b =>
  if b = "20.04" then some ("focal")
  else if b = "22.04" then some ("jammy")
  else none

/-- The `build-on` unwrapping of `main.py` lines 185–188: a truthy `build-on`
must be a singleton list (`assert`), and its only entry replaces the base;
otherwise the base itself is used. -/
def effective_entry (b : YamlBase) : Except Unit BaseEntry :=
  match b.buildOn with
  | some [] => .ok b.self
  | some [e] => .ok e
  | some _ => .error ()
  | none => .ok b.self

/-- `main.py` lines 189–194 for one unwrapped base: read `architectures`
(default `["amd64"]`), assert it is a singleton, and compare its only element
with the charmcraft name of the machine architecture (`KeyError` when the
machine architecture is unknown). -/
def base_matches (architecture : String) (e : BaseEntry) : Except Unit Bool :=
  match e.architectures.getD ["amd64"] with
  | [a] =>
    match CHARMCRAFT_ARCHITECTURES architecture with
    | some ca => .ok (a = ca)
    | none => .error ()
  | _ => .error ()

/-- `main.py` `get_charmcraft_yaml_bases` (lines 173–195): collect the
channels of exactly those declared bases whose single build-on architecture
equals the charmcraft name of the running machine's architecture. -/
def get_charmcraft_yaml_bases (bases : List YamlBase) (architecture : String) :
    Except Unit (List String) :=
  match bases with
  | [] => .ok []
  | b :: rest =>
    match effective_entry b with
    | .error e => .error e
    | .ok entry =>
      match base_matches architecture entry with
      | .error e => .error e
      | .ok m =>
        match get_charmcraft_yaml_bases rest architecture with
        | .error e => .error e
        | .ok versions => .ok (if m then entry.channel :: versions else versions)

/-- One entry of the pip `--dry-run --report` install list (the two metadata
fields the loop reads). -/
structure ReportDep where
  name : String
  version : String
deriving DecidableEq

/-- The inner `for base in bases` of `main.py` lines 262–274: one identity per
matching base, with the machine architecture and `SERIES[base]` (`KeyError`
on unknown channels). -/
def deps_for_bases (r : ReportDep) (bases : List String) (architecture : String) :
    Except Unit (List Dependency) :=
  match bases with
  | [] => .ok []
  | b :: rest =>
    match SERIES b with
    | none => .error ()
    | some s =>
      match deps_for_bases r rest architecture with
      | .error e => .error e
      | .ok ds => .ok ({ name := canonicalizeName r.name
                         version := r.version
                         series := s
                         architecture := architecture } :: ds)

/-- `main.py` lines 255–274: the identity cross-product — each reported
dependency not listed in `charm-binary-python-packages`, times each matching
base. -/
def build_dependencies (report : List ReportDep) (binary_packages : List String)
    (bases : List String) (architecture : String) : Except Unit (List Dependency) :=
  match report with
  | [] => .ok []
  | r :: rest =>
    if r.name ∈ binary_packages then
      build_dependencies rest binary_packages bases architecture
    else
      match deps_for_bases r bases architecture with
      | .error e => .error e
      | .ok ds =>
        match build_dependencies rest binary_packages bases architecture with
        | .error e => .error e
        | .ok ds2 => .ok (ds ++ ds2)

/-- Modelled from the spec: the `Platform` class of the `_platforms` module
(not among the sources), the platform-oriented `TargetIdentity` — "a platform
shorthand plus a relative-path scoping the charm's manifest within its
repository".  Only the members `_main.py` reads are modelled: the shorthand
itself (`name`, e.g. `"ubuntu@22.04:amd64"`), its `architecture`, and its
`name_in_release` used inside release asset names. -/
structure PlatformV2 where
  name : String
  architecture : String
  name_in_release : String
deriving DecidableEq

/-- The per-platform validation loop of `_main.py` lines 340–350: reject a
selected platform absent from charmcraft.yaml `platforms` or with an
architecture different from the machine's. -/
def v2_validate_selected (yamlPlatforms : List PlatformV2) (architecture : String) :
    List PlatformV2 → Except String Unit
  | [] => .ok ()
  | p :: rest =>
    if p ∉ yamlPlatforms then
      .error ("not found in charmcraft.yaml platforms")
    else if p.architecture ≠ architecture then
      .error ("does not match architecture of this machine")
    else v2_validate_selected yamlPlatforms architecture rest

/-- `_main.py` `pack` platform selection (lines 322–352): with no
`--platform` option, keep the charmcraft.yaml platforms whose architecture
equals the machine's; with an explicit selection, reject duplicates
(`Counter` check, lines 331–338), then validate each selected platform, then
take the selection as given. -/
def v2_select_platforms (selected : Option (List PlatformV2))
    (yamlPlatforms : List PlatformV2) (architecture : String) :
    Except String (List PlatformV2) :=
  match selected with
  | none => .ok (yamlPlatforms.filter (fun p => p.architecture = architecture))
  | some sel =>
    if sel.any (fun p => 1 < sel.count p) then .error ("passed more than once")
    else
      match v2_validate_selected yamlPlatforms architecture sel with
      | .error e => .error e
      | .ok _ => .ok sel

/-! ### C2 / C10 — platform-variant asset naming and plan (`_main.py` lines
396–443, 475–479) -/

/-- `_main.py` lines 403–404: the expected release asset name for a
repository, charm path and platform — fixed `_ccchub1_`/`_ccchub2_`
delimiters and `.tar.gz` suffix, then every `/` replaced by `_`. -/
def v2_expected_asset_name (github_repository relative_path name_in_release : String) :
    String :=
  replaceChar '/' '_'
    (github_repository ++ "_ccchub1_" ++ relative_path ++ "_ccchub2_" ++
      name_in_release ++ ".tar.gz")

/-- `_main.py` lines 475–479: the per-charm unpack directory key under
`cache_directory / "charms"` — `/` replaced by `_` in both the repository and
the relative path, joined by `:`. -/
def v2_charm_cache_key (github_repository relative_path : String) : String :=
  replaceChar '/' '_' github_repository ++ ":" ++ replaceChar '/' '_' relative_path

/-- `_main.py` lines 399–420: try each candidate GitHub repository in order;
the first one for which at least one platform's expected asset name appears
among the release assets is accepted; `none` is the `for`-`else` exit (guided
`add` instructions, `exit(1)`). -/
def v2_detect_repository (candidates : List String) (relative_path : String)
    (platforms : List PlatformV2) (catalog : List CatalogAsset) : Option String :=
  candidates.find? (fun repo =>
    catalog.any (fun asset =>
      platforms.any (fun p =>
        asset.name = v2_expected_asset_name repo relative_path p.name_in_release)))

/-- Hard-failure exits of the platform-variant plan, both of which print the
guided `add` instructions and `exit(1)`: `allUnmatched` when no repository
candidate has any matching asset (lines 417–420), `platformUnmatched p` when
the accepted repository lacks an asset for platform `p` (lines 437–443). -/
inductive V2Failure
  | allUnmatched
  | platformUnmatched (p : PlatformV2)
deriving DecidableEq

/-- `_main.py` lines 421–443: for each platform in order, the first release
asset bearing the expected name becomes that platform's archive; a platform
with no matching asset hard-fails the run. -/
def v2_collect_assets (repo relative_path : String) (catalog : List CatalogAsset) :
    List PlatformV2 → Except V2Failure (List (PlatformV2 × CatalogAsset))
  | [] => .ok []
  | p :: rest =>
    match catalog.find? (fun asset =>
        asset.name = v2_expected_asset_name repo relative_path p.name_in_release) with
    | some asset =>
      match v2_collect_assets repo relative_path catalog rest with
      | .error e => .error e
      | .ok l => .ok ((p, asset) :: l)
    | none => .error (.platformUnmatched p)

/-- The plan phase of `_main.py` `pack` after platform selection (lines
396–443): detect the repository, then collect one archive per platform. -/
def v2_plan (candidates : List String) (relative_path : String)
    (platforms : List PlatformV2) (catalog : List CatalogAsset) :
    Except V2Failure (String × List (PlatformV2 × CatalogAsset)) :=
  match v2_detect_repository candidates relative_path platforms catalog with
  | none => .error (.allUnmatched)
  | some repo =>
    match v2_collect_assets repo relative_path catalog platforms with
    | .error e => .error e
    | .ok l => .ok (repo, l)

/-! ### C7 — unpack interruption recovery (`_main.py` lines 480–498) -/

/-- The per-charm unpack slice of the cache: `charmCache` is the
`cache_directory / "charms" / key` directory (`none` = absent; `some dirs` =
present, one entry per already-unpacked platform with the entries extracted
into it) and `sentinel` whether the `all_archives_fully_unpacked` marker file
exists. -/
structure UnpackFS where
  charmCache : Option (List (String × List String))
  sentinel : Bool
deriving DecidableEq

/-- One downloaded archive: the platform (the `charm_cache / asset.platform`
directory name) and the entries its tarball extracts. -/
structure ArchiveAsset where
  platform : String
  entries : List String
deriving DecidableEq

/-- `_main.py` lines 480–486: if the sentinel is absent and the unpack
directory exists, `shutil.rmtree` the whole directory; then `unlink` the
sentinel (`missing_ok=True`). -/
def unpack_reset (fs : UnpackFS) : UnpackFS :=
  let fs1 :=
    if ¬ fs.sentinel ∧ fs.charmCache.isSome then { fs with charmCache := none } else fs
  { fs1 with sentinel := false }

/-- One iteration of `for asset in assets` (`_main.py` lines 487–497): skip a
platform whose directory already exists, otherwise create the directory tree
and extract the archive into it. -/
def unpack_one (fs : UnpackFS) (a : ArchiveAsset) : UnpackFS :=
  match fs.charmCache with
  | some dirs =>
    if dirs.any (fun d => d.1 = a.platform) then fs
    else { fs with charmCache := some (dirs ++ [(a.platform, a.entries)]) }
  | none => { fs with charmCache := some [(a.platform, a.entries)] }

/-- The filesystem states the unpack phase passes through before the final
`touch`: the state after the reset and the state after each platform's
extraction. -/
def unpack_intermediate_states (assets : List ArchiveAsset) (fs : UnpackFS) :
    List UnpackFS :=
  assets.scanl unpack_one (unpack_reset fs)

/-- The whole unpack phase (`_main.py` lines 480–498): reset, extract every
platform, then `touch` the sentinel. -/
def unpack_run (assets : List ArchiveAsset) (fs : UnpackFS) : UnpackFS :=
  { assets.foldl unpack_one (unpack_reset fs) with sentinel := true }

/-! ### C8 — conditional catalog fetch (`main.py` lines 280–305, `_main.py`
lines 356–381; the two variants are identical here) -/

/-- The HTTP conditional-cache pair on disk: `latest_release_etag.txt` and
`latest_release.json` (each `none` = file absent). -/
structure HttpCacheFS where
  etagFile : Option String
  bodyFile : Option String
deriving DecidableEq

/-- The fields of the GitHub response the fetch reads. -/
structure HttpResponse where
  status : Nat
  body : String
  etagHeader : Option String
deriving DecidableEq

/-- Exits of the latest-release fetch: rate-limit abort
(`exit_for_rate_limit`), `raise_for_status` on another error status, success
with the resulting disk state and manifest body, or the two unguarded
exceptions (missing body file on a 304; missing `ETag` header, which raises
only after the body file has already been rewritten). -/
inductive FetchResult
  | rateLimited
  | httpError (status : Nat)
  | ok (fs : HttpCacheFS) (manifest : String)
  | bodyFileMissing
  | etagHeaderMissing (fs : HttpCacheFS)
deriving DecidableEq

/-- `main.py` lines 280–305: read the stored entity tag if present and send it
as the `If-None-Match` header (`respond` is the remote, taking the value of
that header); on 403/429 the rate-limit handler raises; `raise_for_status`
raises on other 4xx/5xx; on 304 reuse the body file from disk with no writes;
otherwise (a 200) persist the response body and its `ETag` header, replacing
the old files. -/
def get_latest_release (fs : HttpCacheFS) (respond : Option String → HttpResponse) :
    FetchResult :=
  let response := respond fs.etagFile
  if response.status = 403 ∨ response.status = 429 then .rateLimited
  else if 400 ≤ response.status ∧ response.status < 600 then .httpError response.status
  else if response.status = 304 then
    match fs.bodyFile with
    | some body => .ok fs body
    | none => .bodyFileMissing
  else
    match response.etagHeader with
    | some e => .ok { etagFile := some e, bodyFile := some response.body } response.body
    | none => .etagHeaderMissing { fs with bodyFile := some response.body }

/-! ### C9 — rate-limit handling (`main.py` lines 139–170, `_main.py` lines
126–155; identical in both variants) -/

/-- Python `round()` on a rational number of seconds: round half to even. -/
def pyRound (q : ℚ) : ℤ :=
  if q - ⌊q⌋ < 1/2 then ⌊q⌋
  else if 1/2 < q - ⌊q⌋ then ⌊q⌋ + 1
  else if ⌊q⌋ % 2 = 0 then ⌊q⌋ else ⌊q⌋ + 1

/-- The response headers `exit_for_rate_limit` inspects, pre-parsed:
`int(headers.get("x-ratelimit-remaining", -1))`, the reset timestamp, and
`Retry-After` (both converted through `float`, embedded as rationals). -/
structure RateHeaders where
  x_ratelimit_remaining : Option Int
  x_ratelimit_reset : Option ℚ
  retry_after : Option ℚ

/-- The content of the abort message `exit_for_rate_limit` raises: the
rounded retry delta in seconds, the absolute retry time, and whether the
message additionally suggests passing the `GH_TOKEN` environment variable. -/
structure RateLimitMessage where
  retryDeltaSeconds : ℤ
  retryTime : ℚ
  suggestToken : Bool

/-- `exit_for_rate_limit` (`main.py` lines 139–170): return (no raise) unless
the status is 403 or 429; then, if the remaining quota parses to exactly zero
and a reset timestamp is present, the retry time is that timestamp and the
delta its distance from now; otherwise the delta is the `Retry-After` value
when present, else 60 seconds, with the retry time now-plus-delta.  The delta
is rounded to the nearest second and the message suggests a token exactly
when `GH_TOKEN` is unset or empty (Python falsy). -/
def exit_for_rate_limit (status : Nat) (headers : RateHeaders) (now : ℚ)
    (ghToken : Option String) : Option RateLimitMessage :=
  if ¬ (status = 403 ∨ status = 429) then none
  else
    let pair :=
      match (if headers.x_ratelimit_remaining.getD (-1) = 0
             then headers.x_ratelimit_reset else none) with
      | some reset => (reset, reset - now)
      | none =>
        match headers.retry_after with
        | some afterSecs => (now + afterSecs, afterSecs)
        | none => (now + 60, (60 : ℚ))
    some { retryDeltaSeconds := pyRound pair.2
           retryTime := pair.1
           suggestToken := (ghToken.getD "") = "" }

/-! ### Concrete sample data for the remaining witnesses -/

/-- An empty artifact tree. -/
def fsEmpty : FileMap := fun _ => none

/-- The outcome of `main_pack` for one dependency and an empty catalog: one
missing wheel, warning emitted, build proceeds. -/
def packOutMissEx : PackOutcome :=
  { assets := []
    missing_wheels := 1
    warned := true
    fs := fsEmpty
    network_calls := 0
    packed := true }

/-- A declared base building on `amd64` for channel `20.04`. -/
def baseEx20 : YamlBase :=
  { buildOn := none, self := { channel := "20.04", architectures := some ["amd64"] } }

/-- A declared base building on `arm64` for channel `22.04`. -/
def baseEx22arm : YamlBase :=
  { buildOn := none, self := { channel := "22.04", architectures := some ["arm64"] } }

/-- A reported dependency whose raw name still needs normalization. -/
def reportDepEx : ReportDep := { name := "Requests", version := "2.31.0" }

/-- The `ubuntu@22.04:amd64` platform. -/
def platEx22 : PlatformV2 :=
  { name := "ubuntu@22.04:amd64"
    architecture := "amd64"
    name_in_release := "ubuntu@22.04:amd64" }

/-- The `ubuntu@20.04:amd64` platform. -/
def platEx20 : PlatformV2 :=
  { name := "ubuntu@20.04:amd64"
    architecture := "amd64"
    name_in_release := "ubuntu@20.04:amd64" }

/-- An `arm64` platform declared in charmcraft.yaml. -/
def platExArm : PlatformV2 :=
  { name := "ubuntu@22.04:arm64"
    architecture := "arm64"
    name_in_release := "ubuntu@22.04:arm64" }

/-- The single repository candidate of the C2 counterexample. -/
def candEx : List String := ["canonical/demo"]

/-- The charm's relative path in the C2 counterexample. -/
def relEx : String := "."

/-- A release catalog holding an archive for `platEx22` only. -/
def catalogEx : List CatalogAsset :=
  [{ name := "canonical_demo_ccchub1_._ccchub2_ubuntu@22.04:amd64.tar.gz"
     browser_download_url := "https://example/a22"
     size := 7 }]

/-- A stale unpack directory left by an interrupted run (sentinel absent). -/
def unpackFSEx : UnpackFS :=
  { charmCache := some [("ubuntu@22.04:amd64", ["old-entry"])], sentinel := false }

/-- The two archives of the C7 witness. -/
def archivesEx : List ArchiveAsset :=
  [{ platform := "ubuntu@22.04:amd64", entries := ["w1.whl", "w2.whl"] },
   { platform := "ubuntu@20.04:amd64", entries := ["w3.whl"] }]

/-- An HTTP cache with a stored entity tag and manifest body. -/
def httpFSEx : HttpCacheFS := { etagFile := some ("tag1"), bodyFile := some ("body1") }

/-- A remote that answers 304 to the stored tag and 200 otherwise. -/
def respondEx : Option String → HttpResponse := fun h =>
  if h = some ("tag1") then { status := 304, body := "fresh", etagHeader := some ("tag2") }
  else { status := 200, body := "fresh", etagHeader := some ("tag2") }

/-- Rate-limit headers of the C9 witness: quota exhausted, reset at 1000. -/
def rateHeadersEx : RateHeaders :=
  { x_ratelimit_remaining := some 0
    x_ratelimit_reset := some 1000
    retry_after := none }

end Ccc

namespace Ccc

/-! ## Theorems -/

/-- Claim C1: if the fingerprint file is absent, the current value is recorded
without wiping (artifacts and other files untouched); if it is present and
differs, a successful reconciliation leaves the artifact store empty (the wipe
is global — it does not depend on which fingerprint kind changed); and on
every exit path, normal or exceptional (including a wipe that raises), the
fingerprint file afterward equals the current value. -/
theorem C1_version_fingerprint_reconciliation
    (vt : VersionType) (current : String)
    (failState : Option (Option (List String))) (fs : CacheFS) :
    (fs.fingerprint vt = none →
      clean_cache_if_version_changed vt current failState fs =
        .ok (writeFingerprint vt current fs)) ∧
    (∀ last, fs.fingerprint vt = some last → last ≠ current → failState = none →
      ∃ fs2, clean_cache_if_version_changed vt current failState fs = .ok fs2 ∧
        fs2.artifacts = some [] ∧ fs2.fingerprint vt = some current) ∧
    (∀ fs2, (clean_cache_if_version_changed vt current failState fs = .ok fs2 ∨
             clean_cache_if_version_changed vt current failState fs = .error fs2) →
      fs2.fingerprint vt = some current) := by
  refine ⟨?_, ?_, ?_⟩
  · intro h
    simp [clean_cache_if_version_changed, h]
  · intro last hlast hne hfail
    subst hfail
    refine ⟨writeFingerprint vt current { fs with artifacts := some [] }, ?_, ?_, ?_⟩
    · simp [clean_cache_if_version_changed, hlast, hne, clean_cache]
    · simp [writeFingerprint]
    · simp [writeFingerprint]
  · intro fs2 h
    rcases hfp : fs.fingerprint vt with _ | last
    · simp [clean_cache_if_version_changed, hfp] at h
      subst h
      simp [writeFingerprint]
    · by_cases hne : last = current
      · simp [clean_cache_if_version_changed, hfp, hne] at h
        subst h
        simp [writeFingerprint]
      · cases hfail : failState with
        | none =>
          simp [clean_cache_if_version_changed, hfp, hne, hfail, clean_cache] at h
          subst h
          simp [writeFingerprint]
        | some a =>
          simp [clean_cache_if_version_changed, hfp, hne, hfail, clean_cache] at h
          subst h
          simp [writeFingerprint]

/-- Witness for C1 at a concrete input: hub fingerprint `v1` on disk, current
value `v2`, wipe succeeds — reconciliation empties the artifact store and
records `v2`. -/
theorem C1_version_fingerprint_reconciliation_witness :
    ∃ fs2, clean_cache_if_version_changed VersionType.charmcraftcachehub ("v2")
        none sampleCacheFS = .ok fs2 ∧
      fs2.artifacts = some [] ∧
      fs2.fingerprint VersionType.charmcraftcachehub = some ("v2") :=
  (C1_version_fingerprint_reconciliation VersionType.charmcraftcachehub ("v2")
      none sampleCacheFS).2.1 ("v1") rfl (by decide) rfl

/-- Claim C3: a download interrupted after `n` chunks leaves the final
Placement path absent (given it was absent before the download started, which
is the only situation in which the download loop runs) with the partial bytes
only at the shared temporary path; and a subsequent uninterrupted run, from
any leftover temporary-file state, produces exactly the full streamed content
at the final path — re-downloading from byte zero, never reusing partial
bytes. -/
theorem C3_atomic_download (chunks : List (List Nat)) (n : Nat) (fs fs2 : DlFS)
    (hAbsent : fs.final = none) :
    (∃ fsE, download_asset chunks (some n) fs = .error fsE ∧
      fsE.final = none ∧ fsE.tempFile = some (chunks.take n).flatten) ∧
    download_asset chunks none fs2 =
      .ok { tempFile := none, final := some chunks.flatten } := by
  constructor
  · exact ⟨{ fs with tempFile := some (chunks.take n).flatten }, rfl, hAbsent, rfl⟩
  · rfl

/-- Witness for C3: a three-chunk stream interrupted after two chunks leaves
no final file and two chunks in the temporary file; the retry produces the
full bytes. -/
theorem C3_atomic_download_witness :
    (∃ fsE, download_asset [[1], [2], [3]] (some 2)
        { tempFile := none, final := none } = .error fsE ∧
      fsE.final = none ∧ fsE.tempFile = some [1, 2]) ∧
    download_asset [[1], [2], [3]] none { tempFile := some [1, 2], final := none } =
      .ok { tempFile := none, final := some [1, 2, 3] } :=
  C3_atomic_download [[1], [2], [3]] 2 { tempFile := none, final := none }
    { tempFile := some [1, 2], final := none } rfl

/-- Entries of the Python-dict style upsert are old entries or the inserted
pair. -/
theorem mem_upsertAsset {m : List (Dependency × AssetInfo)} {d : Dependency}
    {a : AssetInfo} {e : Dependency × AssetInfo} (h : e ∈ upsertAsset m d a) :
    e ∈ m ∨ e = (d, a) := by
  unfold upsertAsset at h
  split at h
  · rcases List.mem_map.1 h with ⟨x, hx, hfx⟩
    by_cases hxd : x.1 = d
    · right
      rw [if_pos hxd] at hfx
      exact hfx.symm
    · left
      rw [if_neg hxd] at hfx
      exact hfx ▸ hx
  · rcases List.mem_append.1 h with h | h
    · left
      exact h
    · right
      simpa using h

/-- Every entry of the download dict produced by the planning loop comes from
a full catalog match whose placement path was absent at planning time. -/
theorem build_assets_entries (catalog : List CatalogAsset) (fs : FileMap) :
    ∀ (deps : List Dependency) (acc res : List (Dependency × AssetInfo) × Nat),
      build_assets catalog fs deps acc = some res →
      (∀ e ∈ acc.1, ∃ w, find_asset e.1 catalog = .found e.2.1 w e.2.2.1 e.2.2.2 ∧
        fs e.2.1 = none) →
      ∀ e ∈ res.1, ∃ w, find_asset e.1 catalog = .found e.2.1 w e.2.2.1 e.2.2.2 ∧
        fs e.2.1 = none := by
  intro deps
  induction deps with
  | nil =>
    intro acc res h hacc
    cases h
    exact hacc
  | cons d ds ih =>
    intro acc res h hacc
    rcases hfa : find_asset d catalog with _ | _ | ⟨fp, w, u, s⟩
    · simp [build_assets, hfa] at h
    · simp only [build_assets, hfa] at h
      exact ih _ _ h hacc
    · by_cases hex : (fs fp).isSome
      · simp only [build_assets, hfa, hex, if_true] at h
        exact ih _ _ h hacc
      · simp only [build_assets, hfa, hex, if_false] at h
        refine ih _ _ h ?_
        intro e he
        rcases mem_upsertAsset he with he' | he'
        · exact hacc e he'
        · subst he'
          exact ⟨w, hfa, Option.not_isSome_iff_eq_none.1 hex⟩

/-- The download loop writes only the paths of its queued entries: every other
path keeps its bytes. -/
theorem foldl_writeFile_preserve (net : String → List Nat) (fp : List String) :
    ∀ (l : List (Dependency × AssetInfo)) (m : FileMap),
      (∀ e ∈ l, e.2.1 ≠ fp) →
      (l.foldl (fun m e => writeFile m e.2.1 (net e.2.2.1)) m) fp = m fp := by
  intro l
  induction l with
  | nil =>
    intro m _
    rfl
  | cons e es ih =>
    intro m hne
    rw [List.foldl_cons]
    rw [ih _ (fun x hx => hne x (List.mem_cons_of_mem _ hx))]
    have hfe : e.2.1 ≠ fp := hne e (List.mem_cons_self _ _)
    simp [writeFile, Ne.symm hfe]

/-- Claim C5: an asset is accepted for a target identity only when every
dimension the `.ccchub` encoding carries — normalized dependency name,
version, base series, architecture — is exactly equal to the identity's
dimension; an asset whose parsed dimensions differ anywhere is passed over
(`continue`), never partially accepted; and among fully matching assets the
first one in catalog order wins (`break`). -/
theorem C5_exact_dimension_match_first_wins :
    (∀ (dep : Dependency) (asset : CatalogAsset) (fp : List String) (w u : String) (s : Nat),
        match_asset dep asset = .matched fp w u s →
        parse_asset_dims asset.name =
          some (dep.name, dep.version, dep.series, dep.architecture)) ∧
    (∀ (dep : Dependency) (asset : CatalogAsset) (n v ser ar : String),
        parse_asset_dims asset.name = some (n, v, ser, ar) →
        ¬(n = dep.name ∧ v = dep.version ∧ ser = dep.series ∧ ar = dep.architecture) →
        match_asset dep asset = .next) ∧
    (∀ (dep : Dependency) (pre post : List CatalogAsset) (a : CatalogAsset)
        (fp : List String) (w u : String) (s : Nat),
        (∀ b ∈ pre, match_asset dep b = .next) →
        match_asset dep a = .matched fp w u s →
        find_asset dep (pre ++ a :: post) = .found fp w u s) := by
  refine ⟨?_, ?_, ?_⟩
  · intro dep asset fp w u s h
    rcases h1 : splitOnce (".ccchub1.") asset.name with _ | ⟨wfn, rest⟩
    · simp [match_asset, h1] at h
    · rcases h2 : parse_wheel_filename wfn with _ | ⟨n, v⟩
      · simp [match_asset, h1, h2] at h
      · by_cases h3 : n = dep.name ∧ v = dep.version
        · rcases h4 : splitOnce (".ccchub2.") rest with _ | ⟨ser, rest2⟩
          · simp [match_asset, h1, h2, h3, h4] at h
          · rcases h5 : splitOnce (".ccchub3.") rest2 with _ | ⟨ar, rest3⟩
            · simp [match_asset, h1, h2, h3, h4, h5] at h
            · by_cases h6 : ser = dep.series
              · by_cases h7 : ar = dep.architecture
                · simp [parse_asset_dims, h1, h2, h4, h5, h3.1, h3.2, h6, h7]
                · simp [match_asset, h1, h2, h3, h4, h5, h6, h7] at h
              · simp [match_asset, h1, h2, h3, h4, h5, h6] at h
        · simp [match_asset, h1, h2, h3] at h
  · intro dep asset n v ser ar hdims hne
    rcases h1 : splitOnce (".ccchub1.") asset.name with _ | ⟨wfn, rest⟩
    · simp [parse_asset_dims, h1] at hdims
    · rcases h2 : parse_wheel_filename wfn with _ | ⟨n', v'⟩
      · simp [parse_asset_dims, h1, h2] at hdims
      · rcases h4 : splitOnce (".ccchub2.") rest with _ | ⟨ser', rest2⟩
        · simp [parse_asset_dims, h1, h2, h4] at hdims
        · rcases h5 : splitOnce (".ccchub3.") rest2 with _ | ⟨ar', rest3⟩
          · simp [parse_asset_dims, h1, h2, h4, h5] at hdims
          · simp only [parse_asset_dims, h1, h2, h4, h5, Option.some.injEq,
              Prod.mk.injEq] at hdims
            obtain ⟨hn, hv, hser, har⟩ := hdims
            subst hn
            subst hv
            subst hser
            subst har
            by_cases h3 : n' = dep.name ∧ v' = dep.version
            · by_cases h6 : ser' = dep.series
              · by_cases h7 : ar' = dep.architecture
                · exact absurd ⟨h3.1, h3.2, h6, h7⟩ hne
                · simp [match_asset, h1, h2, h3, h4, h5, h6, h7]
              · simp [match_asset, h1, h2, h3, h4, h5, h6]
            · simp [match_asset, h1, h2, h3]
  · intro dep pre post a fp w u s hpre ha
    induction pre with
    | nil =>
      simp [find_asset, ha]
    | cons b bs ih =>
      have hb : match_asset dep b = .next := hpre b (List.mem_cons_self _ _)
      rw [List.cons_append]
      simp only [find_asset, hb]
      exact ih (fun x hx => hpre x (List.mem_cons_of_mem _ hx))

/-- Witness for C5, first-match at a concrete input: the catalog lists a
`jammy` asset (same name, version, architecture — rejected on series) before
the `focal` asset; the `focal` asset, first full match in catalog order, is
taken. -/
theorem C5_exact_dimension_match_first_wins_witness :
    find_asset depEx [assetExJammy, assetEx] =
      .found fpEx ("requests-2.31.0-py3-none-any.whl") ("https://example/u1") 10 :=
  C5_exact_dimension_match_first_wins.2.2 depEx [assetExJammy] [] assetEx fpEx
    ("requests-2.31.0-py3-none-any.whl") ("https://example/u1") 10
    (by
      intro b hb
      have hbj : b = assetExJammy := by simpa using hb
      subst hbj
      decide)
    (by decide)

/-- Claim C4: a dependency whose placement path already exists is
short-circuited by the purely local existence check — it never enters the
download dict (and network calls are exactly one per dict entry, so zero for
it) — and the bytes at its placement path are unchanged by the whole run. -/
theorem C4_idempotent_placement (deps : List Dependency) (catalog : List CatalogAsset)
    (net : String → List Nat) (fs0 : FileMap) (dep : Dependency)
    (fp : List String) (w u : String) (s : Nat) (out : PackOutcome)
    (hfind : find_asset dep catalog = .found fp w u s)
    (hex : (fs0 fp).isSome)
    (hrun : main_pack deps catalog net fs0 = some out) :
    (∀ e ∈ out.assets, e.1 ≠ dep ∧ e.2.1 ≠ fp) ∧
    out.network_calls = out.assets.length ∧
    out.fs fp = fs0 fp := by
  rcases hb : build_assets catalog fs0 deps ([], 0) with _ | ⟨assets, missing⟩
  · simp [main_pack, hb] at hrun
  · simp only [main_pack, hb, Option.some.injEq] at hrun
    have hP := build_assets_entries catalog fs0 deps ([], 0) (assets, missing) hb
      (by intro e he; exact absurd he (List.not_mem_nil e))
    have hnotfp : ∀ e ∈ assets, e.2.1 ≠ fp := by
      intro e he hefp
      obtain ⟨w', hfind', hnone⟩ := hP e he
      rw [hefp] at hnone
      rw [hnone] at hex
      simp at hex
    have hnotdep : ∀ e ∈ assets, e.1 ≠ dep := by
      intro e he hed
      obtain ⟨w', hfind', hnone⟩ := hP e he
      rw [hed, hfind] at hfind'
      injection hfind' with h1 h2 h3 h4
      exact hnotfp e he h1.symm
    subst hrun
    exact ⟨fun e he => ⟨hnotdep e he, hnotfp e he⟩, rfl,
      foldl_writeFile_preserve net fp assets fs0 hnotfp⟩

/-- Witness for C4 at a concrete input: with `depEx`'s wheel already placed,
the run produces an empty download dict, zero network calls, and the placed
bytes untouched. -/
theorem C4_idempotent_placement_witness :
    main_pack [depEx] [assetEx] netEx fs0Ex = some packOutEx ∧
    (∀ e ∈ packOutEx.assets, e.1 ≠ depEx ∧ e.2.1 ≠ fpEx) ∧
    packOutEx.fs fpEx = fs0Ex fpEx := by
  have h := C4_idempotent_placement [depEx] [assetEx] netEx fs0Ex depEx fpEx
    ("requests-2.31.0-py3-none-any.whl") ("https://example/u1") 10 packOutEx
    (by decide) (by decide) (by rfl)
  exact ⟨rfl, h.1, h.2.2⟩

/-- Every channel collected by `get_charmcraft_yaml_bases` comes from a
declared base whose single build-on architecture matches the machine's. -/
theorem get_bases_sound (architecture : String) :
    ∀ (bases : List YamlBase) (versions : List String),
      get_charmcraft_yaml_bases bases architecture = .ok versions →
      ∀ v ∈ versions, ∃ b ∈ bases, ∃ e, effective_entry b = .ok e ∧
        base_matches architecture e = .ok true ∧ e.channel = v := by
  intro bases
  induction bases with
  | nil =>
    intro versions h v hv
    simp only [get_charmcraft_yaml_bases, Except.ok.injEq] at h
    subst h
    cases hv
  | cons b rest ih =>
    intro versions h v hv
    rcases he : effective_entry b with er | entry
    · simp [get_charmcraft_yaml_bases, he] at h
    · rcases hm : base_matches architecture entry with er | m
      · simp [get_charmcraft_yaml_bases, he, hm] at h
      · rcases hr : get_charmcraft_yaml_bases rest architecture with er | versions2
        · simp [get_charmcraft_yaml_bases, he, hm, hr] at h
        · simp only [get_charmcraft_yaml_bases, he, hm, hr, Except.ok.injEq] at h
          subst h
          cases m with
          | true =>
            rcases List.mem_cons.1 (by simpa using hv) with hv2 | hv2
            · exact ⟨b, List.mem_cons_self _ _, entry, he, hm, hv2.symm⟩
            · obtain ⟨b2, hb2, e2, he2, hm2, hch2⟩ := ih versions2 hr v hv2
              exact ⟨b2, List.mem_cons_of_mem _ hb2, e2, he2, hm2, hch2⟩
          | false =>
            obtain ⟨b2, hb2, e2, he2, hm2, hch2⟩ := ih versions2 hr v (by simpa using hv)
            exact ⟨b2, List.mem_cons_of_mem _ hb2, e2, he2, hm2, hch2⟩

/-- Every identity emitted for one reported dependency has the machine
architecture and a series from one of the given channels. -/
theorem deps_for_bases_sound (r : ReportDep) (architecture : String) :
    ∀ (bases : List String) (ds : List Dependency),
      deps_for_bases r bases architecture = .ok ds →
      ∀ d ∈ ds, d.architecture = architecture ∧
        ∃ v ∈ bases, SERIES v = some d.series := by
  intro bases
  induction bases with
  | nil =>
    intro ds h d hd
    simp only [deps_for_bases, Except.ok.injEq] at h
    subst h
    cases hd
  | cons b rest ih =>
    intro ds h d hd
    rcases hs : SERIES b with _ | s
    · simp [deps_for_bases, hs] at h
    · rcases hr : deps_for_bases r rest architecture with er | ds2
      · simp [deps_for_bases, hs, hr] at h
      · simp only [deps_for_bases, hs, hr, Except.ok.injEq] at h
        subst h
        rcases List.mem_cons.1 hd with hd2 | hd2
        · subst hd2
          exact ⟨rfl, b, List.mem_cons_self _ _, hs⟩
        · obtain ⟨ha, v, hv, hsv⟩ := ih ds2 hr d hd2
          exact ⟨ha, v, List.mem_cons_of_mem _ hv, hsv⟩

/-- Every identity emitted by the cross-product has the machine architecture
and a series from one of the given channels. -/
theorem build_dependencies_sound (binary_packages : List String) (architecture : String)
    (bases : List String) :
    ∀ (report : List ReportDep) (deps : List Dependency),
      build_dependencies report binary_packages bases architecture = .ok deps →
      ∀ d ∈ deps, d.architecture = architecture ∧
        ∃ v ∈ bases, SERIES v = some d.series := by
  intro report
  induction report with
  | nil =>
    intro deps h d hd
    simp only [build_dependencies, Except.ok.injEq] at h
    subst h
    cases hd
  | cons r rest ih =>
    intro deps h d hd
    by_cases hbin : r.name ∈ binary_packages
    · simp only [build_dependencies, if_pos hbin] at h
      exact ih deps h d hd
    · rcases h1 : deps_for_bases r bases architecture with er | ds
      · simp [build_dependencies, hbin, h1] at h
      · rcases h2 : build_dependencies rest binary_packages bases architecture with er | ds2
        · simp [build_dependencies, hbin, h1, h2] at h
        · simp only [build_dependencies, if_neg hbin, h1, h2, Except.ok.injEq] at h
          subst h
          rcases List.mem_append.1 hd with hd2 | hd2
          · exact deps_for_bases_sound r architecture bases ds h1 d hd2
          · exact ih ds2 h2 d hd2

/-- A selection that passes validation contains only machine-architecture
platforms. -/
theorem v2_validate_selected_sound (yamlPlatforms : List PlatformV2)
    (architecture : String) :
    ∀ (sel : List PlatformV2), v2_validate_selected yamlPlatforms architecture sel = .ok () →
      ∀ p ∈ sel, p.architecture = architecture := by
  intro sel
  induction sel with
  | nil =>
    intro _ p hp
    cases hp
  | cons q rest ih =>
    intro h p hp
    by_cases h1 : q ∈ yamlPlatforms
    · by_cases h2 : q.architecture = architecture
      · simp only [v2_validate_selected, if_neg (not_not_intro h1),
          if_neg (not_not_intro h2)] at h
        rcases List.mem_cons.1 hp with hp2 | hp2
        · subst hp2
          exact h2
        · exact ih h p hp2
      · simp only [v2_validate_selected, if_neg (not_not_intro h1), if_pos h2] at h
        cases h
    · simp only [v2_validate_selected, if_pos h1] at h
      cases h

/-- Claim C6: no target identity is ever emitted whose architecture differs
from the detected machine architecture.  Wheel variant: every identity of the
cross-product carries the machine architecture, and its series comes from a
declared base whose single build-on architecture matches the machine's —
non-matching bases are excluded.  Platform variant: every platform the
selection step lets through (detected or explicitly selected) has the machine
architecture.  Both resolvers are functions of local inputs only — no network
data appears among their arguments. -/
theorem C6_architecture_filtering :
    (∀ (report : List ReportDep) (binary_packages : List String) (bases : List YamlBase)
        (architecture : String) (versions : List String) (deps : List Dependency),
        get_charmcraft_yaml_bases bases architecture = .ok versions →
        build_dependencies report binary_packages versions architecture = .ok deps →
        ∀ d ∈ deps, d.architecture = architecture ∧
          ∃ b ∈ bases, ∃ e, effective_entry b = .ok e ∧
            base_matches architecture e = .ok true ∧ SERIES e.channel = some d.series) ∧
    (∀ (selected : Option (List PlatformV2)) (yamlPlatforms : List PlatformV2)
        (architecture : String) (ps : List PlatformV2),
        v2_select_platforms selected yamlPlatforms architecture = .ok ps →
        ∀ p ∈ ps, p.architecture = architecture) := by
  constructor
  · intro report bp bases arch versions deps hbases hdeps d hd
    obtain ⟨ha, v, hv, hsv⟩ :=
      build_dependencies_sound bp arch versions report deps hdeps d hd
    obtain ⟨b, hb, e, he, hm, hch⟩ := get_bases_sound arch bases versions hbases v hv
    exact ⟨ha, b, hb, e, he, hm, by rw [hch]; exact hsv⟩
  · intro selected yamlPlatforms arch ps h p hp
    cases selected with
    | none =>
      simp only [v2_select_platforms, Except.ok.injEq] at h
      subst h
      simpa using (List.mem_filter.1 hp).2
    | some sel =>
      by_cases hdup : sel.any (fun q => 1 < sel.count q)
      · simp [v2_select_platforms, hdup] at h
      · rcases hval : v2_validate_selected yamlPlatforms arch sel with er | u
        · simp [v2_select_platforms, hdup, hval] at h
        · simp only [v2_select_platforms, hdup, if_false, hval, Except.ok.injEq,
            Bool.false_eq_true] at h
          subst h
          exact v2_validate_selected_sound yamlPlatforms arch sel hval p hp

/-- Witness for C6 at concrete inputs.  Wheel variant: bases `20.04/amd64`
and `22.04/arm64` on an `x86_64` machine yield exactly the identity `requests
2.31.0 focal x86_64`, whose dimensions trace to the matching base.  Platform
variant: the explicit selection `[platEx22]` passes validation on an `amd64`
machine and contains only `amd64` platforms. -/
theorem C6_architecture_filtering_witness :
    (∀ d ∈ [depEx], d.architecture = "x86_64" ∧
      ∃ b ∈ [baseEx20, baseEx22arm], ∃ e, effective_entry b = .ok e ∧
        base_matches ("x86_64") e = .ok true ∧ SERIES e.channel = some d.series) ∧
    (∀ p ∈ [platEx22], p.architecture = "amd64") := by
  constructor
  · exact C6_architecture_filtering.1 [reportDepEx] [] [baseEx20, baseEx22arm]
      ("x86_64") ["20.04"] [depEx] (by rfl) (by rfl)
  · exact C6_architecture_filtering.2 (some [platEx22]) [platEx22, platExArm]
      ("amd64") [platEx22] (by rfl)

/-- Every error of the per-platform asset collection is a `platformUnmatched`
failure for a requested platform with no matching asset. -/
theorem v2_collect_assets_error (repo relative_path : String) (catalog : List CatalogAsset) :
    ∀ (platforms : List PlatformV2) (e : V2Failure),
      v2_collect_assets repo relative_path catalog platforms = .error e →
      ∃ p ∈ platforms, e = .platformUnmatched p ∧
        catalog.find? (fun asset =>
          asset.name = v2_expected_asset_name repo relative_path p.name_in_release) = none := by
  intro platforms
  induction platforms with
  | nil =>
    intro e h
    simp [v2_collect_assets] at h
  | cons p rest ih =>
    intro e h
    rcases hf : catalog.find? (fun asset =>
        asset.name = v2_expected_asset_name repo relative_path p.name_in_release) with _ | asset
    · simp only [v2_collect_assets, hf, Except.error.injEq] at h
      exact ⟨p, List.mem_cons_self _ _, h.symm, hf⟩
    · rcases hr : v2_collect_assets repo relative_path catalog rest with e2 | l
      · simp only [v2_collect_assets, hf, hr, Except.error.injEq] at h
        obtain ⟨q, hq, he2, hfq⟩ := ih e2 hr
        exact ⟨q, List.mem_cons_of_mem _ hq, h ▸ he2, hfq⟩
      · simp [v2_collect_assets, hf, hr] at h

/-- Counterexample to claim C2: in the platform variant, a plan in which the
`ubuntu@22.04:amd64` identity has a matching asset (so the repository is
accepted) but `ubuntu@20.04:amd64` has none does not degrade to a warning —
it hard-fails with the guided `add` fallback and `exit(1)`
(`platformUnmatched`), contradicting the claimed degrade-and-proceed. -/
theorem C2_counterexample_hard_failure_on_partial_match :
    (catalogEx.any (fun asset =>
      asset.name =
        v2_expected_asset_name ("canonical/demo") relEx platEx22.name_in_release)) = true ∧
    v2_plan candEx relEx [platEx22, platEx20] catalogEx =
      .error (V2Failure.platformUnmatched platEx20) := by
  exact ⟨by rfl, by rfl⟩

/-- Claim C2 as amended.  Wheel variant (`main.py`): every unmatched identity
only increments the miss counter, the warning is emitted exactly when the
counter is non-zero, and control always reaches `charmcraft pack` — no hard
failure exists on that path.  Platform variant (`_main.py`): the guided hard
failure `allUnmatched` occurs exactly when no repository candidate has any
matching asset; and additionally a hard failure `platformUnmatched p` occurs
whenever the accepted repository has no asset for the requested platform `p`
— a partial match does not degrade to a warning in this variant. -/
theorem C2_amended_partial_match_behaviour :
    (∀ (deps : List Dependency) (catalog : List CatalogAsset) (net : String → List Nat)
        (fs0 : FileMap) (out : PackOutcome),
        main_pack deps catalog net fs0 = some out →
        out.packed = true ∧ (out.warned = true ↔ out.missing_wheels ≠ 0)) ∧
    (∀ (candidates : List String) (relative_path : String) (platforms : List PlatformV2)
        (catalog : List CatalogAsset),
        v2_plan candidates relative_path platforms catalog = .error V2Failure.allUnmatched ↔
          v2_detect_repository candidates relative_path platforms catalog = none) ∧
    (∀ (candidates : List String) (relative_path : String) (platforms : List PlatformV2)
        (catalog : List CatalogAsset) (p : PlatformV2),
        v2_plan candidates relative_path platforms catalog =
          .error (V2Failure.platformUnmatched p) →
        p ∈ platforms ∧
        ∃ repo, v2_detect_repository candidates relative_path platforms catalog = some repo ∧
          catalog.find? (fun asset =>
            asset.name = v2_expected_asset_name repo relative_path p.name_in_release) = none) := by
  refine ⟨?_, ?_, ?_⟩
  · intro deps catalog net fs0 out hrun
    rcases hb : build_assets catalog fs0 deps ([], 0) with _ | ⟨assets, missing⟩
    · simp [main_pack, hb] at hrun
    · simp only [main_pack, hb, Option.some.injEq] at hrun
      subst hrun
      exact ⟨rfl, by simp⟩
  · intro candidates relative_path platforms catalog
    rcases hd : v2_detect_repository candidates relative_path platforms catalog with _ | repo
    · simp [v2_plan, hd]
    · rcases hc : v2_collect_assets repo relative_path catalog platforms with e | l
      · simp only [v2_plan, hd, hc]
        obtain ⟨q, _, he, _⟩ := v2_collect_assets_error repo relative_path catalog platforms e hc
        subst he
        constructor
        · intro h
          cases h
        · intro h
          cases h
      · simp [v2_plan, hd, hc]
  · intro candidates relative_path platforms catalog p h
    rcases hd : v2_detect_repository candidates relative_path platforms catalog with _ | repo
    · simp [v2_plan, hd] at h
    · rcases hc : v2_collect_assets repo relative_path catalog platforms with e | l
      · simp only [v2_plan, hd, hc, Except.error.injEq] at h
        obtain ⟨q, hq, he, hfq⟩ := v2_collect_assets_error repo relative_path catalog platforms e hc
        rw [h] at he
        injection he with hqp
        subst hqp
        exact ⟨hq, repo, rfl, hfq⟩
      · simp [v2_plan, hd, hc] at h

/-- Witness for the amended C2.  Wheel variant: one dependency, empty
catalog — the miss is counted, the warning emitted, and packing proceeds.
Platform variant: at the counterexample input, the accepted repository
`canonical/demo` lacks an asset for `ubuntu@20.04:amd64`. -/
theorem C2_amended_partial_match_behaviour_witness :
    (packOutMissEx.packed = true ∧
      (packOutMissEx.warned = true ↔ packOutMissEx.missing_wheels ≠ 0)) ∧
    (platEx20 ∈ [platEx22, platEx20] ∧
      ∃ repo, v2_detect_repository candEx relEx [platEx22, platEx20] catalogEx = some repo ∧
        catalogEx.find? (fun asset =>
          asset.name = v2_expected_asset_name repo relEx platEx20.name_in_release) = none) := by
  constructor
  · exact C2_amended_partial_match_behaviour.1 [depEx] [] netEx fsEmpty packOutMissEx (by rfl)
  · exact C2_amended_partial_match_behaviour.2.2 candEx relEx [platEx22, platEx20]
      catalogEx platEx20 (by rfl)

/-- `unpack_one` never touches the sentinel file. -/
theorem unpack_one_sentinel (fs : UnpackFS) (a : ArchiveAsset) :
    (unpack_one fs a).sentinel = fs.sentinel := by
  rcases hc : fs.charmCache with _ | dirs
  · simp [unpack_one, hc]
  · by_cases hd : dirs.any (fun d => d.1 = a.platform)
    · simp [unpack_one, hc, hd]
    · simp [unpack_one, hc, hd]

/-- Along the extraction loop the sentinel stays in its starting state. -/
theorem scanl_sentinel_false (assets : List ArchiveAsset) :
    ∀ (b : UnpackFS), b.sentinel = false →
      ∀ s ∈ assets.scanl unpack_one b, s.sentinel = false := by
  induction assets with
  | nil =>
    intro b hb s hs
    simp only [List.scanl_nil, List.mem_singleton] at hs
    subst hs
    exact hb
  | cons a rest ih =>
    intro b hb s hs
    rw [List.scanl_cons] at hs
    rcases List.mem_cons.1 hs with hs2 | hs2
    · subst hs2
      exact hb
    · exact ih (unpack_one b a) (by rw [unpack_one_sentinel]; exact hb) s hs2

/-- Extracting archives for pairwise-distinct platforms into a directory
disjoint from them appends exactly one fresh entry per archive. -/
theorem foldl_unpack_fresh :
    ∀ (assets : List ArchiveAsset) (dirs : List (String × List String)) (b : Bool),
      (∀ a ∈ assets, ∀ d ∈ dirs, d.1 ≠ a.platform) →
      (assets.map (fun a => a.platform)).Nodup →
      assets.foldl unpack_one { charmCache := some dirs, sentinel := b } =
        { charmCache := some (dirs ++ assets.map (fun a => (a.platform, a.entries)))
          sentinel := b } := by
  intro assets
  induction assets with
  | nil =>
    intro dirs b _ _
    simp
  | cons a rest ih =>
    intro dirs b hdisj hnodup
    rw [List.foldl_cons]
    have hskip : dirs.any (fun d => d.1 = a.platform) = false := by
      rw [List.any_eq_false]
      intro d hd
      simpa using hdisj a (List.mem_cons_self _ _) d hd
    have hstep : unpack_one { charmCache := some dirs, sentinel := b } a =
        { charmCache := some (dirs ++ [(a.platform, a.entries)]), sentinel := b } := by
      simp [unpack_one, hskip]
    have hnd : (∀ x ∈ rest, ¬ x.platform = a.platform) ∧
        (List.map (fun a => a.platform) rest).Nodup := by simpa using hnodup
    have hdisj2 : ∀ x ∈ rest, ∀ e ∈ dirs ++ [(a.platform, a.entries)], e.1 ≠ x.platform := by
      intro x hx e he
      rcases List.mem_append.1 he with he2 | he2
      · exact hdisj x (List.mem_cons_of_mem _ hx) e he2
      · have hde : e = (a.platform, a.entries) := by simpa using he2
        subst hde
        exact fun hc => hnd.1 x hx hc.symm
    rw [hstep, ih (dirs ++ [(a.platform, a.entries)]) b hdisj2 hnd.2]
    simp

/-- Claim C7: when the sentinel is absent but the unpack directory exists,
the reset deletes the whole directory (nothing of the old contents survives);
the sentinel is false in every state up to and including the last extraction;
the final `touch` sets it; and the final directory holds exactly one fresh
entry per archive of the run, re-extracted from the raw archives — never
merged with the partial directory. -/
theorem C7_unpack_interruption_recovery (fs : UnpackFS) (assets : List ArchiveAsset)
    (d : List (String × List String))
    (hsent : fs.sentinel = false) (hex : fs.charmCache = some d)
    (hnodup : (assets.map (fun a => a.platform)).Nodup) :
    unpack_reset fs = { charmCache := none, sentinel := false } ∧
    (∀ s ∈ unpack_intermediate_states assets fs, s.sentinel = false) ∧
    (unpack_run assets fs).sentinel = true ∧
    (assets ≠ [] →
      (unpack_run assets fs).charmCache =
        some (assets.map (fun a => (a.platform, a.entries)))) := by
  have hreset : unpack_reset fs = { charmCache := none, sentinel := false } := by
    simp [unpack_reset, hsent, hex]
  refine ⟨hreset, ?_, rfl, ?_⟩
  · intro s hs
    exact scanl_sentinel_false assets (unpack_reset fs) (by rw [hreset]) s hs
  · intro hne
    rcases assets with _ | ⟨a, rest⟩
    · exact absurd rfl hne
    · have hstep : unpack_one { charmCache := none, sentinel := false } a =
          { charmCache := some [(a.platform, a.entries)], sentinel := false } := by
        simp [unpack_one]
      have hnd : (∀ x ∈ rest, ¬ x.platform = a.platform) ∧
          (List.map (fun a => a.platform) rest).Nodup := by simpa using hnodup
      have hdisj2 : ∀ x ∈ rest, ∀ e ∈ [(a.platform, a.entries)], e.1 ≠ x.platform := by
        intro x hx e he
        have hde : e = (a.platform, a.entries) := by simpa using he
        subst hde
        exact fun hc => hnd.1 x hx hc.symm
      rw [unpack_run, hreset, List.foldl_cons, hstep,
        foldl_unpack_fresh rest [(a.platform, a.entries)] false hdisj2 hnd.2]
      simp

/-- Witness for C7 at a concrete input: a stale `22.04` directory without a
sentinel is wiped and both archives of the run are freshly extracted, the
sentinel appearing only in the final state. -/
theorem C7_unpack_interruption_recovery_witness :
    unpack_reset unpackFSEx = { charmCache := none, sentinel := false } ∧
    (∀ s ∈ unpack_intermediate_states archivesEx unpackFSEx, s.sentinel = false) ∧
    (unpack_run archivesEx unpackFSEx).sentinel = true ∧
    (unpack_run archivesEx unpackFSEx).charmCache =
      some [("ubuntu@22.04:amd64", ["w1.whl", "w2.whl"]),
            ("ubuntu@20.04:amd64", ["w3.whl"])] := by
  have h := C7_unpack_interruption_recovery unpackFSEx archivesEx
    [("ubuntu@22.04:amd64", ["old-entry"])] rfl rfl (by decide)
  refine ⟨h.1, h.2.1, h.2.2.1, ?_⟩
  rw [h.2.2.2 (by decide)]
  rfl

/-- Claim C8: the latest-release fetch depends on the remote only through the
response to the one conditional request carrying the stored entity tag (sent
exactly when the tag file is on disk); a 304 reuses the persisted manifest
body with the disk state unchanged — no new writes to the body or tag files;
a 200 persists the new body and the new entity tag, replacing the old
ones. -/
theorem C8_conditional_catalog_fetch (fs : HttpCacheFS)
    (respond respond2 : Option String → HttpResponse) :
    (respond fs.etagFile = respond2 fs.etagFile →
      get_latest_release fs respond = get_latest_release fs respond2) ∧
    (∀ body, fs.bodyFile = some body → (respond fs.etagFile).status = 304 →
      get_latest_release fs respond = .ok fs body) ∧
    ((respond fs.etagFile).status = 200 →
      ∀ e, (respond fs.etagFile).etagHeader = some e →
      get_latest_release fs respond =
        .ok { etagFile := some e, bodyFile := some (respond fs.etagFile).body }
          (respond fs.etagFile).body) := by
  refine ⟨?_, ?_, ?_⟩
  · intro h
    unfold get_latest_release
    rw [h]
  · intro body hbody h304
    simp [get_latest_release, h304, hbody]
  · intro h200 e he
    simp [get_latest_release, h200, he]

/-- Witness for C8 at a concrete input: with entity tag `tag1` and body
`body1` on disk, a remote answering 304 to `tag1` makes the fetch return the
on-disk body with the disk state unchanged. -/
theorem C8_conditional_catalog_fetch_witness :
    get_latest_release httpFSEx respondEx = .ok httpFSEx ("body1") :=
  (C8_conditional_catalog_fetch httpFSEx respondEx respondEx).2.1 ("body1") rfl rfl

/-- Claim C9: the rate-limit handler raises only on status 403 or 429; the
wait is computed from the reset timestamp when the remaining quota is exactly
zero and the timestamp is present, else from `Retry-After`, else a fixed 60
seconds; the delta named in the abort message is rounded to the nearest
second (`pyRound` deviates from the exact delta by at most half a second);
and the message suggests the `GH_TOKEN` environment variable exactly when the
variable is unset or empty. -/
theorem C9_rate_limit_handling (status : Nat) (headers : RateHeaders) (now : ℚ)
    (ghToken : Option String) :
    (¬ (status = 403 ∨ status = 429) →
      exit_for_rate_limit status headers now ghToken = none) ∧
    (status = 403 ∨ status = 429 →
      ∃ msg, exit_for_rate_limit status headers now ghToken = some msg ∧
        (∀ reset, headers.x_ratelimit_remaining.getD (-1) = 0 →
          headers.x_ratelimit_reset = some reset →
          msg.retryTime = reset ∧ msg.retryDeltaSeconds = pyRound (reset - now)) ∧
        ((headers.x_ratelimit_remaining.getD (-1) = 0 → headers.x_ratelimit_reset = none) →
          (∀ afterSecs, headers.retry_after = some afterSecs →
            msg.retryTime = now + afterSecs ∧ msg.retryDeltaSeconds = pyRound afterSecs) ∧
          (headers.retry_after = none →
            msg.retryTime = now + 60 ∧ msg.retryDeltaSeconds = pyRound 60)) ∧
        (msg.suggestToken = true ↔ ghToken.getD ("") = "")) ∧
    (∀ q : ℚ, |q - (pyRound q : ℚ)| ≤ 1/2) := by
  refine ⟨?_, ?_, ?_⟩
  · intro h
    simp [exit_for_rate_limit, h]
  · intro h
    unfold exit_for_rate_limit
    rw [if_neg (not_not_intro h)]
    refine ⟨_, rfl, ?_, ?_, ?_⟩
    · intro reset hrem hreset
      simp [hrem, hreset]
    · intro hno
      by_cases hrem : headers.x_ratelimit_remaining.getD (-1) = 0
      · rw [if_pos hrem, hno hrem]
        constructor
        · intro afterSecs hafter
          simp [hafter]
        · intro hafter
          simp [hafter]
      · rw [if_neg hrem]
        constructor
        · intro afterSecs hafter
          simp [hafter]
        · intro hafter
          simp [hafter]
    · simp
  · intro q
    have h0 : 0 ≤ q - (⌊q⌋ : ℚ) := by
      have := Int.floor_le q
      linarith
    have h1 : q - (⌊q⌋ : ℚ) < 1 := by
      have := Int.lt_floor_add_one q
      linarith
    unfold pyRound
    by_cases hlt : q - (⌊q⌋ : ℚ) < 1/2
    · rw [if_pos hlt]
      rw [abs_le]
      constructor <;> linarith
    · by_cases hgt : (1 : ℚ)/2 < q - (⌊q⌋ : ℚ)
      · rw [if_neg hlt, if_pos hgt]
        rw [abs_le]
        push_cast
        constructor <;> linarith
      · have heq : q - (⌊q⌋ : ℚ) = 1/2 := le_antisymm (not_lt.1 hgt) (not_lt.1 hlt)
        rw [if_neg hlt, if_neg hgt]
        by_cases hev : ⌊q⌋ % 2 = 0
        · rw [if_pos hev]
          rw [abs_le]
          constructor <;> linarith
        · rw [if_neg hev]
          rw [abs_le]
          push_cast
          constructor <;> linarith

/-- Witness for C9 at a concrete input: status 403, remaining quota zero,
reset timestamp 1000, now 990, no token — the handler aborts naming retry
time 1000, a delta of 10 seconds, and suggests setting `GH_TOKEN`. -/
theorem C9_rate_limit_handling_witness :
    ∃ msg, exit_for_rate_limit 403 rateHeadersEx 990 none = some msg ∧
      msg.retryTime = 1000 ∧ msg.retryDeltaSeconds = 10 ∧ msg.suggestToken = true := by
  obtain ⟨msg, hmsg, c1, _, c3⟩ :=
    (C9_rate_limit_handling 403 rateHeadersEx 990 none).2.1 (Or.inl rfl)
  obtain ⟨ht, hd⟩ := c1 1000 rfl rfl
  refine ⟨msg, hmsg, ht, ?_, c3.2 rfl⟩
  rw [hd]
  norm_num [pyRound]

/-- Claim C10: the platform-variant encoding is not injective — the repository
`canonical/demo` with path `charm` and the repository `canonical_demo` with
the same path are distinct identities, yet they produce the same expected
asset name and the same unpack directory key, because the `/`-to-`_`
replacement happens after the delimiters are joined. -/
theorem C10_platform_asset_name_encoding_not_injective :
    (("canonical/demo", "charm") : String × String) ≠ ("canonical_demo", "charm") ∧
    v2_expected_asset_name ("canonical/demo") ("charm") ("ubuntu@22.04:amd64") =
      v2_expected_asset_name ("canonical_demo") ("charm") ("ubuntu@22.04:amd64") ∧
    v2_charm_cache_key ("canonical/demo") ("charm") =
      v2_charm_cache_key ("canonical_demo") ("charm") := by
  exact ⟨by decide, by decide, by decide⟩

end Ccc
